import Mathlib

/-!
Verification of the cudup release-resolution and installation pipeline.

The Rust sources are shallowly embedded: pure functions become Lean
functions over `Nat`, `String` and lists; the filesystem-facing installer
becomes explicit state passing over a small filesystem record; network
fetches become oracle functions passed as arguments.  Character-level
string operations (split, trim, lowercase, prefix test) are implemented
over `List Char` so that every definition reduces in the kernel.
-/

/-- Decidable equality for `Except`, so that concrete runs of the embedded
fallible functions can be checked by `decide`. -/
instance {ε α : Type} [DecidableEq ε] [DecidableEq α] : DecidableEq (Except ε α) := fun a b =>
  match a, b with
  | .ok x, .ok y =>
    if h : x = y then .isTrue (by rw [h]) else .isFalse (by intro hc; cases hc; exact h rfl)
  | .error x, .error y =>
    if h : x = y then .isTrue (by rw [h]) else .isFalse (by intro hc; cases hc; exact h rfl)
  | .ok _, .error _ => .isFalse (by intro hc; cases hc)
  | .error _, .ok _ => .isFalse (by intro hc; cases hc)

/-! ## Character and string helpers (Rust `str` operations) -/

/-- Splits a character list on a separator, keeping empty segments, exactly
like Rust `str::split(sep)`: the empty input yields one empty segment. -/
def splitOnChar (sep : Char) : List Char → List (List Char)
  | [] => [[]]
  | c :: rest =>
    let r := splitOnChar sep rest
    if c = sep then [] :: r
    else
      match r with
      | [] => [[c]]
      | h :: t => (c :: h) :: t

/-- Rust `version.split('.')` collected into a list of strings. -/
def rustSplitDot (s : String) : List String :=
  (splitOnChar '.' s.toList).map List.asString

/-- Boolean list-prefix test, used to embed Rust `str::starts_with`. -/
def listStartsWith : List Char → List Char → Bool
  | [], _ => true
  | _ :: _, [] => false
  | p :: ps, c :: cs => p = c && listStartsWith ps cs

/-- Rust `s.starts_with(p)`. -/
def rustStartsWith (s p : String) : Bool :=
  listStartsWith p.toList s.toList

/-- Decimal digit test, as in Rust integer parsing (ASCII `0`-`9` only). -/
def isAsciiDigit (c : Char) : Bool :=
  48 ≤ c.toNat && c.toNat ≤ 57

/-- Numeric value of a decimal digit list, most significant first. -/
def digitsToNat (l : List Char) : Nat :=
  l.foldl (fun acc c => acc * 10 + (c.toNat - 48)) 0

/-- Rust `s.parse::<uN>()` for an unsigned integer type whose values are
`< bound`: an optional leading `+`, then one or more ASCII digits, and the
value must fit (otherwise Rust fails with overflow). -/
def rustParseNatBounded (bound : Nat) (s : String) : Option Nat :=
  let t := match s.toList with
    | '+' :: rest => rest
    | l => l
  if t.isEmpty then none
  else if t.all isAsciiDigit then
    let v := digitsToNat t
    if v < bound then some v else none
  else none

/-- Rust `s.parse::<u32>()`. -/
def rustParseU32 (s : String) : Option Nat :=
  rustParseNatBounded 4294967296 s

/-- Rust `s.parse::<u64>()`. -/
def rustParseU64 (s : String) : Option Nat :=
  rustParseNatBounded 18446744073709551616 s

/-! ## CudaVersion (src/cuda/version.rs)

`CudaVersion::parse` walks the `split('.')` iterator: it pulls three
components, parses each as `u32` in order (failing with a per-component
error), and then fails if a fourth component exists. -/

/-- Embeds `CudaVersion::parse` / `CudaVersion::new` from src/cuda/version.rs.
Returns the `(major, minor, patch)` components on success. -/
def cudaVersionParse (s : String) : Except String (Nat × Nat × Nat) :=
  match rustSplitDot s with
  | [] => .error (s!"Invalid CUDA version '{s}': expected format 'major.minor.patch' (e.g., '12.4.1')")
  | [c1] =>
    match rustParseU32 c1 with
    | none => .error (s!"Invalid CUDA version '{s}': major component '{c1}' is not a valid number")
    | some _ => .error (s!"Invalid CUDA version '{s}': expected format 'major.minor.patch' (e.g., '12.4.1')")
  | [c1, c2] =>
    match rustParseU32 c1 with
    | none => .error (s!"Invalid CUDA version '{s}': major component '{c1}' is not a valid number")
    | some _ =>
      match rustParseU32 c2 with
      | none => .error (s!"Invalid CUDA version '{s}': minor component '{c2}' is not a valid number")
      | some _ => .error (s!"Invalid CUDA version '{s}': expected format 'major.minor.patch' (e.g., '12.4.1')")
  | c1 :: c2 :: c3 :: rest =>
    match rustParseU32 c1 with
    | none => .error (s!"Invalid CUDA version '{s}': major component '{c1}' is not a valid number")
    | some major =>
      match rustParseU32 c2 with
      | none => .error (s!"Invalid CUDA version '{s}': minor component '{c2}' is not a valid number")
      | some minor =>
        match rustParseU32 c3 with
        | none => .error (s!"Invalid CUDA version '{s}': patch component '{c3}' is not a valid number")
        | some patch =>
          if rest.isEmpty then .ok (major, minor, patch)
          else .error (s!"Invalid CUDA version '{s}': expected format 'major.minor.patch' (e.g., '12.4.1')")

/-! ## Cache (src/cache/mod.rs)

The cache loaders read a file, parse it with serde, and gate the payload
on a TTL check against the current wall clock.  The filesystem and the
serde parser are modelled as explicit arguments: `file` is the contents
of the cache file when it exists, and `parse` is the serde oracle
(returning `none` exactly when serde would fail). -/

/-- Cache TTL for version lists, 24 hours in seconds (src/cache/mod.rs). -/
def VERSION_LIST_TTL : Nat := 24 * 60 * 60

/-- Cache TTL for metadata JSONs, 7 days in seconds (src/cache/mod.rs). -/
def METADATA_TTL : Nat := 7 * 24 * 60 * 60

/-- Embeds `is_cache_valid`: `now.saturating_sub(cached_at) < ttl.as_secs()`.
Lean `Nat` subtraction is saturating, matching `u64::saturating_sub`. -/
def is_cache_valid (cached_at : Nat) (ttl : Nat) (now : Nat) : Bool :=
  now - cached_at < ttl

/-- Payload of a cached version-list file (`CachedVersionList`). -/
structure CachedVersionList where
  versions : List String
  cached_at : Nat
deriving Repr, DecidableEq

/-- Embeds `load_cached_versions` (src/cache/mod.rs lines 89-112).
`parse` is the serde oracle, `file` the cache file contents when the file
exists, `now` the current Unix time. A parse failure is surfaced as an
error, never as a cache miss. -/
def load_cached_versions (parse : String → Option CachedVersionList)
    (product : String) (force_refresh : Bool) (file : Option String)
    (now : Nat) : Except String (Option (List String)) :=
  if force_refresh then .ok none
  else
    match file with
    | none => .ok none
    | some content =>
      match parse content with
      | none => .error (s!"Failed to parse cached {product} versions")
      | some cached =>
        if is_cache_valid cached.cached_at VERSION_LIST_TTL now then
          .ok (some cached.versions)
        else
          .ok none

/-! ## SHA-256 (the `sha2` crate as used by src/fetch/verify.rs)

A byte-level FIPS 180-4 SHA-256 over `List Nat` (each element one byte),
with 32-bit words as `Nat` reduced mod `2^32`.  The streaming loop of
`verify_checksum` hashes exactly the file's bytes in order, so hashing the
whole byte list is the same computation. -/

/-- Truncation to a 32-bit word. -/
def w32 (n : Nat) : Nat := n % 4294967296

/-- Rotation of a 32-bit word to the right by `n` bits. -/
def rotr32 (n x : Nat) : Nat := w32 ((x >>> n) ||| (x <<< (32 - n)))

/-- SHA-256 round constants (decimal rendering of the standard table). -/
def sha256K : List Nat :=
  [1116352408, 1899447441, 3049323471, 3921009573,
   961987163, 1508970993, 2453635748, 2870763221,
   3624381080, 310598401, 607225278, 1426881987,
   1925078388, 2162078206, 2614888103, 3248222580,
   3835390401, 4022224774, 264347078, 604807628,
   770255983, 1249150122, 1555081692, 1996064986,
   2554220882, 2821834349, 2952996808, 3210313671,
   3336571891, 3584528711, 113926993, 338241895,
   666307205, 773529912, 1294757372, 1396182291,
   1695183700, 1986661051, 2177026350, 2456956037,
   2730485921, 2820302411, 3259730800, 3345764771,
   3516065817, 3600352804, 4094571909, 275423344,
   430227734, 506948616, 659060556, 883997877,
   958139571, 1322822218, 1537002063, 1747873779,
   1955562222, 2024104815, 2227730452, 2361852424,
   2428436474, 2756734187, 3204031479, 3329325298]

/-- SHA-256 initial hash state (decimal rendering). -/
def sha256H0 : List Nat :=
  [1779033703, 3144134277, 1013904242, 2773480762,
   1359893119, 2600822924, 528734635, 1541459225]

/-- Upper-case sigma 0. -/
def bigSigma0 (x : Nat) : Nat := rotr32 2 x ^^^ rotr32 13 x ^^^ rotr32 22 x

/-- Upper-case sigma 1. -/
def bigSigma1 (x : Nat) : Nat := rotr32 6 x ^^^ rotr32 11 x ^^^ rotr32 25 x

/-- Lower-case sigma 0. -/
def smallSigma0 (x : Nat) : Nat := rotr32 7 x ^^^ rotr32 18 x ^^^ (x >>> 3)

/-- Lower-case sigma 1. -/
def smallSigma1 (x : Nat) : Nat := rotr32 17 x ^^^ rotr32 19 x ^^^ (x >>> 10)

/-- Merkle-Damgard padding: append `0x80`, zero bytes to 56 mod 64, then the
message bit length as a 64-bit big-endian integer. -/
def sha256Pad (msg : List Nat) : List Nat :=
  let L := msg.length
  let k := (119 - (L % 64)) % 64
  let bitLen := (8 * L) % 18446744073709551616
  msg ++ [128] ++ List.replicate k 0 ++ (List.range 8).map (fun i => (bitLen >>> (8 * (7 - i))) % 256)

/-- Fuel-indexed 64-byte chunking (structural recursion so the kernel can
evaluate it). -/
def chunks64Aux : Nat → List Nat → List (List Nat)
  | 0, _ => []
  | _, [] => []
  | fuel + 1, l => l.take 64 :: chunks64Aux fuel (l.drop 64)

/-- Splits a byte list into 64-byte blocks. -/
def chunks64 (l : List Nat) : List (List Nat) := chunks64Aux (l.length + 1) l

/-- The first 16 words of the message schedule: the block bytes, big-endian
four at a time. -/
def sha256Words16 (chunk : List Nat) : List Nat :=
  (List.range 16).map (fun i =>
    ((chunk.getD (4 * i) 0) <<< 24) ||| ((chunk.getD (4 * i + 1) 0) <<< 16) |||
      ((chunk.getD (4 * i + 2) 0) <<< 8) ||| chunk.getD (4 * i + 3) 0)

/-- The full 64-word message schedule. -/
def sha256Schedule (chunk : List Nat) : List Nat :=
  (List.range 48).foldl
    (fun w _ =>
      let n := w.length
      w ++ [w32 (w.getD (n - 16) 0 + smallSigma0 (w.getD (n - 15) 0) +
                   w.getD (n - 7) 0 + smallSigma1 (w.getD (n - 2) 0))])
    (sha256Words16 chunk)

/-- One SHA-256 compression round over the working variables. -/
def sha256Round (st : List Nat) (kw : Nat × Nat) : List Nat :=
  match st with
  | [a, b, c, d, e, f, g, h] =>
    let ch := (e &&& f) ^^^ ((e ^^^ 4294967295) &&& g)
    let temp1 := w32 (h + bigSigma1 e + ch + kw.1 + kw.2)
    let maj := (a &&& b) ^^^ (a &&& c) ^^^ (b &&& c)
    let temp2 := w32 (bigSigma0 a + maj)
    [w32 (temp1 + temp2), a, b, c, w32 (d + temp1), e, f, g]
  | _ => st

/-- Compression of one 64-byte block into the running hash state. -/
def sha256Compress (h : List Nat) (chunk : List Nat) : List Nat :=
  let fin := (sha256K.zip (sha256Schedule chunk)).foldl sha256Round h
  match fin, h with
  | [a, b, c, d, e, f, g, hh], [h0, h1, h2, h3, h4, h5, h6, h7] =>
    [w32 (h0 + a), w32 (h1 + b), w32 (h2 + c), w32 (h3 + d),
     w32 (h4 + e), w32 (h5 + f), w32 (h6 + g), w32 (h7 + hh)]
  | _, _ => h

/-- SHA-256 digest of a byte list, as its 32 digest bytes. -/
def sha256 (msg : List Nat) : List Nat :=
  let hw := (chunks64 (sha256Pad msg)).foldl sha256Compress sha256H0
  hw.foldr (fun w acc =>
    (w >>> 24) % 256 :: (w >>> 16) % 256 :: (w >>> 8) % 256 :: w % 256 :: acc) []

/-- Lower-case hexadecimal digit. -/
def hexDigit (n : Nat) : Char :=
  if n < 10 then Char.ofNat (48 + n) else Char.ofNat (87 + n)

/-- Lower-case hexadecimal rendering of a byte list, two digits per byte:
the format Rust produces for the digest with `\x7b:x\x7d`. -/
def bytesToHex (bytes : List Nat) : String :=
  List.asString (bytes.foldr (fun b acc => hexDigit (b / 16) :: hexDigit (b % 16) :: acc) [])

/-! ## Checksum verification (src/fetch/verify.rs) -/

/-- Rust `char::is_whitespace`: the Unicode `White_Space` code points. -/
def rustIsWhitespace (c : Char) : Bool :=
  c.toNat ∈ [9, 10, 11, 12, 13, 32, 133, 160, 5760,
             8192, 8193, 8194, 8195, 8196, 8197, 8198, 8199, 8200, 8201, 8202,
             8232, 8233, 8239, 8287, 12288]

/-- Whitespace removal from both ends of a character list. -/
def trimChars (l : List Char) : List Char :=
  ((l.dropWhile rustIsWhitespace).reverse.dropWhile rustIsWhitespace).reverse

/-- Rust `str::trim`: surrounding whitespace removed from both ends. -/
def rustTrim (s : String) : String :=
  List.asString (trimChars s.toList)

/-- Per-character lowercasing. On ASCII this is exactly Rust
`str::to_lowercase`; hex digests and their case variants are ASCII. -/
def rustCharToLower (c : Char) : Char :=
  if 65 ≤ c.toNat && c.toNat ≤ 90 then Char.ofNat (c.toNat + 32) else c

/-- Rust `str::to_lowercase`, restricted to its ASCII behaviour. -/
def rustToLowercase (s : String) : String :=
  List.asString (s.toList.map rustCharToLower)

/-- Embeds `verify_checksum` (src/fetch/verify.rs lines 7-37) over the bytes
of an existing readable file: normalise the expected digest by trimming and
lowercasing, hash the file bytes, and fail with a checksum-mismatch error
when the two differ. -/
def verify_checksum (fileBytes : List Nat) (expected_sha256 : String) : Except String Unit :=
  let expected := rustToLowercase (rustTrim expected_sha256)
  let actual := bytesToHex (sha256 fileBytes)
  if actual ≠ expected then
    .error (s!"Checksum mismatch: expected {expected}, got {actual}")
  else
    .ok ()

/-! ## Release metadata model (src/cuda/metadata.rs)

`HashMap` fields become association lists; the untagged
`Simple`/`Variants` union becomes an inductive with the same two arms.
Lookup order in an association list is irrelevant because Rust `HashMap`
keys are unique. -/

/-- Mirrors `DownloadInfo`. -/
structure DownloadInfo where
  relative_path : String
  sha256 : String
  md5 : String
  size : String
deriving Repr, DecidableEq

/-- Mirrors `PlatformInfo`: one direct download, or a map of
variant key to download. -/
inductive PlatformInfo where
  | Simple (info : DownloadInfo)
  | Variants (variants : List (String × DownloadInfo))
deriving Repr, DecidableEq

/-- Mirrors `PackageInfo` (license fields omitted: no embedded code reads
them). -/
structure PackageInfo where
  version : String
  cuda_variant : Option (List String) := none
  platforms : List (String × PlatformInfo)
deriving Repr, DecidableEq

/-- Mirrors `CudaReleaseMetadata` (release-level strings omitted: no
embedded code reads them). -/
structure CudaReleaseMetadata where
  packages : List (String × PackageInfo)
deriving Repr, DecidableEq

/-- Mirrors `CudaReleaseMetadata::get_package`. -/
def CudaReleaseMetadata.get_package (m : CudaReleaseMetadata) (name : String) : Option PackageInfo :=
  (m.packages.find? (fun p => p.1 == name)).map Prod.snd

/-- Mirrors `PackageInfo::get_platform`. -/
def PackageInfo.get_platform (p : PackageInfo) (platform : String) : Option PlatformInfo :=
  (p.platforms.find? (fun q => q.1 == platform)).map Prod.snd

/-- Lookup in a variants map, mirroring `variants.get(&variant_key)`. -/
def variantsGet (variants : List (String × DownloadInfo)) (key : String) : Option DownloadInfo :=
  (variants.find? (fun q => q.1 == key)).map Prod.snd

/-! ## Download tasks (src/fetch/tasks.rs and src/fetch/download.rs) -/

/-- Base URL constant `CUDA_BASE_URL` (src/cuda/discover.rs). -/
def CUDA_BASE_URL : String := "https://developer.download.nvidia.com/compute/cuda/redist"

/-- Base URL constant `CUDNN_BASE_URL` (src/cuda/discover.rs). -/
def CUDNN_BASE_URL : String := "https://developer.download.nvidia.com/compute/cudnn/redist"

/-- Mirrors the current `DownloadTask` (src/fetch/download.rs): `size` is
`Option` because an unparseable size degrades to unknown. -/
structure DownloadTask where
  package_name : String
  version : String
  url : String
  sha256 : String
  size : Option Nat
  relative_path : String
deriving Repr, DecidableEq

/-- Embeds `parse_size` (src/fetch/tasks.rs lines 9-14): `size_str.parse::<u64>().ok()`,
with `none` on failure (the warning log has no observable effect). -/
def parse_size (size_str : String) : Option Nat :=
  rustParseU64 size_str

/-- Embeds `cuda_major_version` (src/fetch/tasks.rs lines 17-19): the text
before the first `.`, or `none` when that text is empty. -/
def cuda_major_version (cuda_version : String) : Option String :=
  match rustSplitDot cuda_version with
  | [] => none
  | c :: _ => if c.isEmpty then none else some c

/-- Outcome of one iteration of a task-collection loop: the package is
skipped, the iteration panics, or a task is produced. -/
inductive TaskStep where
  | skip
  | panicked
  | task (t : DownloadTask)
deriving Repr, DecidableEq

/-- The per-package body of the `collect_cuda_download_tasks` loop
(src/fetch/tasks.rs lines 43-76).  `panicked` models the `expect` at
line 56: a `Variants` entry is reached while the version string has no
nonempty major component. -/
def fetchTaskOfPackage (cuda_version platform : String)
    (package_name : String) (package_info : PackageInfo) : TaskStep :=
  if rustStartsWith package_name "release_" then .skip
  else
    match package_info.get_platform platform with
    | none => .skip
    | some platform_info =>
      let info? : Option (Option DownloadInfo) :=
        match platform_info with
        | .Simple info => some (some info)
        | .Variants variants =>
          match cuda_major_version cuda_version with
          | none => none
          | some cuda_major =>
            match variantsGet variants ("cuda" ++ cuda_major) with
            | some info => some (some info)
            | none => some none
      match info? with
      | none => .panicked
      | some none => .skip
      | some (some download_info) =>
        .task
          { package_name := package_name
            version := package_info.version
            url := CUDA_BASE_URL ++ "/" ++ download_info.relative_path
            sha256 := download_info.sha256
            size := parse_size download_info.size
            relative_path := download_info.relative_path }

/-- The package loop of `collect_cuda_download_tasks`, in map iteration
order; `none` when some iteration panics. -/
def fetchCollectLoop (cuda_version platform : String) :
    List (String × PackageInfo) → Option (List DownloadTask)
  | [] => some []
  | (nm, pi) :: rest =>
    match fetchTaskOfPackage cuda_version platform nm pi with
    | .panicked => none
    | .skip => fetchCollectLoop cuda_version platform rest
    | .task t => (fetchCollectLoop cuda_version platform rest).map (t :: ·)

/-- The comparator passed to `sort_unstable_by` (src/fetch/tasks.rs lines
79-84), verbatim: it matches on `(b.size, a.size)`. -/
def taskCmp (a b : DownloadTask) : Ordering :=
  match b.size, a.size with
  | some bSize, some aSize => compare bSize aSize
  | some _, none => .lt
  | none, some _ => .gt
  | none, none => .eq

/-- Boolean not-greater reading of `taskCmp`, the order `sort_unstable_by`
sorts ascending by. -/
def taskLe (a b : DownloadTask) : Bool :=
  taskCmp a b ≠ Ordering.gt

/-- Embeds `collect_cuda_download_tasks` (src/fetch/tasks.rs lines 36-87):
filter and project every applicable package into a task, then sort with
the hand-written comparator.  `none` models the `expect` panic.  The
source's `sort_unstable_by` is embedded as a sort by the comparator's
not-greater relation; the two can differ only on comparator ties. -/
def collect_cuda_download_tasks (metadata : CudaReleaseMetadata)
    (cuda_version platform : String) : Option (List DownloadTask) :=
  (fetchCollectLoop cuda_version platform metadata.packages).map
    (fun tasks => tasks.insertionSort (fun a b => taskLe a b = true))

/-! ## Metadata cache loader (src/cache/mod.rs lines 166-190) -/

/-- Payload of a cached metadata file (`CachedMetadata`). -/
structure CachedMetadata where
  metadata : CudaReleaseMetadata
  cached_at : Nat
deriving Repr, DecidableEq

/-- Embeds `load_cached_metadata`: same shape as `load_cached_versions`
but keyed additionally by version and gated by the 7-day TTL. -/
def load_cached_metadata (parse : String → Option CachedMetadata)
    (product : String) (version : String) (force_refresh : Bool)
    (file : Option String) (now : Nat) :
    Except String (Option CudaReleaseMetadata) :=
  if force_refresh then .ok none
  else
    match file with
    | none => .ok none
    | some content =>
      match parse content with
      | none => .error (s!"Failed to parse cached {product} {version} metadata")
      | some cached =>
        if is_cache_valid cached.cached_at METADATA_TTL now then
          .ok (some cached.metadata)
        else
          .ok none

/-! ## Historical task collector (src/install/tasks.rs)

The historical snapshot collects over the fixed platform
`TARGET_PLATFORM = "linux-x86_64"` (the constant as declared in
src/install/mod.rs line 14), defaults the major to `"12"` instead of
panicking, represents an unparseable size as `0`, and does not sort. -/

/-- Mirrors the historical `DownloadTask` (src/install/mod.rs lines
16-24): `size` is a plain integer, `0` standing in for unknown. -/
structure InstallDownloadTask where
  package_name : String
  version : String
  url : String
  sha256 : String
  size : Nat
  relative_path : String
deriving Repr, DecidableEq

/-- The fixed platform of the historical collector. -/
def TARGET_PLATFORM : String := "linux-x86_64"

/-- The major component as computed by the historical collector:
`cuda_version.split('.').next().unwrap_or("12")`.  The iterator always
yields at least one (possibly empty) component, so the default never
fires; it is kept for fidelity. -/
def installCudaMajor (cuda_version : String) : String :=
  match rustSplitDot cuda_version with
  | [] => "12"
  | c :: _ => c

/-- The per-package body of the historical collection loop
(src/install/tasks.rs lines 34-77). -/
def installTaskStep (cuda_version : String) (p : String × PackageInfo) :
    Option InstallDownloadTask :=
  if rustStartsWith p.1 "release_" then none
  else
    match (p.2).get_platform TARGET_PLATFORM with
    | none => none
    | some platform_info =>
      let download_info? :=
        match platform_info with
        | .Simple info => some info
        | .Variants variants =>
          variantsGet variants ("cuda" ++ installCudaMajor cuda_version)
      download_info?.map (fun download_info =>
        { package_name := p.1
          version := (p.2).version
          url := CUDA_BASE_URL ++ "/" ++ download_info.relative_path
          sha256 := download_info.sha256
          size := (rustParseU64 download_info.size).getD 0
          relative_path := download_info.relative_path })

/-- Embeds the historical `collect_cuda_download_tasks`
(src/install/tasks.rs lines 28-80): same selection rule as the current
collector, over the fixed platform, unsorted, sizes defaulted to `0`,
and it never fails (the source returns `Ok` unconditionally). -/
def installCollectCudaDownloadTasks (metadata : CudaReleaseMetadata)
    (cuda_version : String) : List InstallDownloadTask :=
  metadata.packages.filterMap (installTaskStep cuda_version)

/-! ## Companion-compatibility search (src/cuda/discover.rs lines 86-111
and src/install/mod.rs lines 29-44)

The BTreeSet of available cuDNN versions becomes a list in the set's
ascending iteration order; the per-version metadata fetch becomes an
oracle returning `none` when the network fetch fails.  The search is
instrumented with the list of versions whose metadata it fetches. -/

/-- Major extraction shared by the search code:
`cuda_version.split('.').next()`, which always yields a (possibly empty)
first component. -/
def cudaMajorSplit (v : String) : String :=
  match rustSplitDot v with
  | [] => ""
  | c :: _ => c

/-- The compatibility test applied to one fetched metadata document: its
`cudnn` package declares `major` in its `cuda_variant` list. -/
def cudnnSupportsMajor (md : CudaReleaseMetadata) (major : String) : Bool :=
  match md.get_package "cudnn" with
  | some pkg =>
    match pkg.cuda_variant with
    | some variants => variants.contains major
    | none => false
  | none => false

/-- Embeds `fetch_compatible_cudnn_versions` (src/cuda/discover.rs lines
86-111): walk every available version in ascending order, fetch its
metadata (skipping fetch failures), and collect the compatible ones.
Returns the compatible versions (still ascending) with the fetch
trace. -/
def fetch_compatible_cudnn_versions (cuda_version : String)
    (available : List String)
    (fetchMeta : String → Option CudaReleaseMetadata) :
    List String × List String :=
  available.foldl
    (fun acc ver =>
      let fetched := acc.2 ++ [ver]
      match fetchMeta ver with
      | none => (acc.1, fetched)
      | some md =>
        if cudnnSupportsMajor md (cudaMajorSplit cuda_version) then
          (acc.1 ++ [ver], fetched)
        else
          (acc.1, fetched))
    ([], [])

/-- Embeds `find_compatible_cudnn` (src/install/mod.rs lines 29-44): the
newest (`next_back`, i.e. last in ascending order) compatible version,
paired with the `"cuda" + major` variant key. -/
def find_compatible_cudnn (cuda_version : String) (available : List String)
    (fetchMeta : String → Option CudaReleaseMetadata) :
    Option (String × String) :=
  ((fetch_compatible_cudnn_versions cuda_version available fetchMeta).1).getLast?.map
    (fun c => (c, "cuda" ++ cudaMajorSplit cuda_version))

/-! ## Installer pipeline (src/fetch/installer.rs)

State-passing embedding of the per-task download/verify/extract cycle and
the all-or-nothing rollback.  The filesystem is reduced to the two pieces
of state the claims are about: the version's install directory (absent,
or present with the list of entries extracted into it) and the set of
staged archive files in the downloads directory.  Each task carries a
prescribed outcome, standing for what the network, the digest comparison
and `tar` do on that run; filesystem removals are modelled as succeeding
(the source ignores their errors). -/

/-- The filesystem state visible to the installer claims. -/
structure FsState where
  installDir : Option (List String)
  staged : List String
deriving Repr, DecidableEq

/-- Prescribed outcome of one task: the download fails (with or without
the staged file having been created), the checksum mismatches, `tar`
fails, or everything succeeds and `files` are extracted. -/
inductive TaskOutcome where
  | downloadFail (fileCreated : Bool)
  | checksumFail
  | extractFail
  | taskOk (files : List String)
deriving Repr, DecidableEq

/-- One task together with its prescribed outcome. -/
structure TaskRun where
  archiveName : String
  outcome : TaskOutcome
deriving Repr, DecidableEq

/-- The step a task failed at. -/
inductive StepError where
  | download
  | checksum
  | extract
deriving Repr, DecidableEq

/-- Creation of the staged archive file. -/
def stageFile (st : FsState) (name : String) : FsState :=
  { st with staged := if st.staged.contains name then st.staged else name :: st.staged }

/-- Removal of a staged archive file (`fs::remove_file(..).await.ok()`:
best-effort in the source, always succeeding in the model). -/
def removeStaged (st : FsState) (name : String) : FsState :=
  { st with staged := st.staged.filter (fun s => s ≠ name) }

/-- Extraction into the install directory (`extract_tarball` runs
`create_dir_all` first, then unpacks). -/
def extractInto (st : FsState) (files : List String) : FsState :=
  { st with installDir := some (st.installDir.getD [] ++ files) }

/-- Embeds `process_download_task` (src/fetch/installer.rs lines 105-137):
download to the staging directory, verify the checksum (deleting the
staged file on mismatch), extract into the install directory, and delete
the staged file.  The `?` on `extract_tarball` propagates before the
cleanup line runs. -/
def process_download_task (st : FsState) (t : TaskRun) :
    Option StepError × FsState :=
  match t.outcome with
  | .downloadFail fileCreated =>
    (some .download, if fileCreated then stageFile st t.archiveName else st)
  | .checksumFail =>
    let st1 := stageFile st t.archiveName
    (some .checksum, removeStaged st1 t.archiveName)
  | .extractFail =>
    let st1 := stageFile st t.archiveName
    (some .extract, st1)
  | .taskOk files =>
    let st1 := stageFile st t.archiveName
    let st2 := extractInto st1 files
    (none, removeStaged st2 t.archiveName)

/-- The sequential task loop of `install_cuda_version` (src/fetch/
installer.rs lines 223-234): tasks run one after another, stopping at the
first error. -/
def installTaskLoop (st : FsState) : List TaskRun → Option StepError × FsState
  | [] => (none, st)
  | t :: rest =>
    match process_download_task st t with
    | (some e, st') => (some e, st')
    | (none, st') => installTaskLoop st' rest

/-- Embeds the directory-creation, task-sequence and rollback portion of
`install_cuda_version` (src/fetch/installer.rs lines 217-240): create the
install directory, run the primary and companion tasks in order, and on
any task failure recursively remove the install directory before
propagating that error. -/
def install_cuda_version_run (st : FsState) (tasks : List TaskRun) :
    Option StepError × FsState :=
  let st0 := { st with installDir := some (st.installDir.getD []) }
  match installTaskLoop st0 tasks with
  | (some e, st') => (some e, { st' with installDir := none })
  | (none, st') => (none, st')

/-- The error of the first failing task of a run, if any. -/
def firstFailure : List TaskRun → Option StepError
  | [] => none
  | t :: rest =>
    match t.outcome with
    | .downloadFail _ => some .download
    | .checksumFail => some .checksum
    | .extractFail => some .extract
    | .taskOk _ => firstFailure rest

/-! ## Helper lemmas -/

/-! ## Claim-specific concrete inputs and characterization definitions -/

/-- Metadata exhibiting the sort-policy bug: package `a` has a parseable
size `10`, package `b` an unparseable size string. -/
def c7_metadata : CudaReleaseMetadata :=
  { packages :=
      [("a", { version := "1.0.0",
               platforms := [("linux-x86_64",
                 .Simple { relative_path := "a/a.tar.xz", sha256 := "aa", md5 := "ma",
                           size := "10" })] }),
       ("b", { version := "1.0.0",
               platforms := [("linux-x86_64",
                 .Simple { relative_path := "b/b.tar.xz", sha256 := "bb", md5 := "mb",
                           size := "junk" })] })] }

/-- The per-package projection underlying the collection loop: the task
produced for a package, if any (ignoring the panic case). -/
def fetchStep (v pl : String) (p : String × PackageInfo) : Option DownloadTask :=
  match fetchTaskOfPackage v pl p.1 p.2 with
  | .task t => some t
  | _ => none

/-- The claim's selection condition for a package: not release-prefixed,
an entry for the platform exists, and that entry is `Simple` or a
`Variants` map containing the `"cuda" + major` key. -/
def fetchSelected (maj platform nm : String) (pi : PackageInfo) : Bool :=
  !rustStartsWith nm "release_" &&
    match pi.get_platform platform with
    | some (.Simple _) => true
    | some (.Variants variants) => (variantsGet variants ("cuda" ++ maj)).isSome
    | none => false

/-- The spec's worked example: package `a` with a `Simple` entry for
platform `P`, package `b` with `Variants` keyed `cuda12` and `cuda11`. -/
def c4_metadata : CudaReleaseMetadata :=
  { packages :=
      [("a", { version := "1.0.0",
               platforms := [("P",
                 .Simple { relative_path := "d1", sha256 := "s1", md5 := "m1", size := "2" })] }),
       ("b", { version := "1.0.0",
               platforms := [("P",
                 .Variants
                   [("cuda12", { relative_path := "d2", sha256 := "s2", md5 := "m2", size := "1" }),
                    ("cuda11", { relative_path := "d3", sha256 := "s3", md5 := "m3", size := "1" })])] })] }

/-- Lexicographic comparison of character lists by code point.  For UTF-8
encoded strings this coincides with Rust's byte-lexicographic `Ord` on
`String`, the order of a `BTreeSet<String>`. -/
def charListLt : List Char → List Char → Bool
  | [], [] => false
  | [], _ :: _ => true
  | _ :: _, [] => false
  | a :: as', b :: bs =>
    if a.toNat < b.toNat then true
    else if b.toNat < a.toNat then false
    else charListLt as' bs

/-- Rust `String` strict order (byte-lexicographic). -/
def rustStringLt (a b : String) : Bool := charListLt a.toList b.toList

/-- Rust `String` order, non-strict. -/
def rustStringLe (a b : String) : Bool := rustStringLt a b || a == b

/-- The per-candidate test of the compatibility search: the metadata
fetch succeeds and the fetched document declares the major. -/
def compatCond (cuda_version : String)
    (fetchMeta : String → Option CudaReleaseMetadata) (ver : String) : Bool :=
  match fetchMeta ver with
  | none => false
  | some md => cudnnSupportsMajor md (cudaMajorSplit cuda_version)

/-- Companion metadata whose `cudnn` package declares the given
`cuda_variant` list. -/
def c2_metadata_of (vs : List String) : CudaReleaseMetadata :=
  { packages := [("cudnn", { version := "9.1.0.70", cuda_variant := some vs, platforms := [] })] }

/-- Oracle for the spec's worked example: `8.9.0` supports only major 11,
`9.0.0` and `9.1.0` support majors 11 and 12. -/
def c2_fetch : String → Option CudaReleaseMetadata := fun ver =>
  if ver = "8.9.0" then some (c2_metadata_of ["11"])
  else if ver = "9.0.0" then some (c2_metadata_of ["11", "12"])
  else if ver = "9.1.0" then some (c2_metadata_of ["11", "12"])
  else none

/-- Forgetting the current task representation into the historical one:
identical fields, with an unknown size becoming `0`. -/
def toInstallTask (t : DownloadTask) : InstallDownloadTask :=
  { package_name := t.package_name
    version := t.version
    url := t.url
    sha256 := t.sha256
    size := t.size.getD 0
    relative_path := t.relative_path }

/-- Metadata separating the two collectors: a `Variants` package keyed
`"cuda"`, met by the historical collector's defaulted key for a version
string with an empty major, where the current collector panics. -/
def c10_metadata : CudaReleaseMetadata :=
  { packages :=
      [("b", { version := "9.0.0",
               platforms := [("linux-x86_64",
                 .Variants [("cuda", { relative_path := "b/b.tar.xz", sha256 := "bb",
                                       md5 := "mb", size := "5" })])] })] }

/-- Sample metadata for the C10 witness: one `Simple` package, one
`Variants` package, and an unparseable size. -/
def c10_sample : CudaReleaseMetadata :=
  { packages :=
      [("a", { version := "1.0.0",
               platforms := [("linux-x86_64",
                 .Simple { relative_path := "a/a.tar.xz", sha256 := "aa", md5 := "ma",
                           size := "oops" })] }),
       ("b", { version := "2.0.0",
               platforms := [("linux-x86_64",
                 .Variants [("cuda12", { relative_path := "b/b.tar.xz", sha256 := "bb",
                                         md5 := "mb", size := "7" })])] })] }

/-- The task loop propagates the error of the first failing task. -/
theorem installTaskLoop_firstFailure (tasks : List TaskRun) :
    ∀ st e, firstFailure tasks = some e → (installTaskLoop st tasks).1 = some e := by
  induction tasks with
  | nil => intro st e h; simp [firstFailure] at h
  | cons t rest ih =>
    intro st e h
    cases ht : t.outcome <;>
      simp only [firstFailure, ht, Option.some.injEq] at h <;>
      simp only [installTaskLoop, process_download_task, ht]
    · simp [← h]
    · simp [← h]
    · simp [← h]
    · exact ih _ e h

/-! ## C1: all-or-nothing install -/

/-- C1: if any per-task step (download, checksum verification, or
extraction) in the task sequence fails, `install_cuda_version` returns
that first error, and the version's install directory does not exist
afterward — it is recursively removed, together with every file extracted
by earlier successful tasks, before the error propagates. -/
theorem install_all_or_nothing (st : FsState) (tasks : List TaskRun) (e : StepError)
    (hfail : firstFailure tasks = some e) :
    (install_cuda_version_run st tasks).1 = some e
      ∧ (install_cuda_version_run st tasks).2.installDir = none := by
  unfold install_cuda_version_run
  have h := installTaskLoop_firstFailure tasks
    { st with installDir := some (st.installDir.getD []) } e hfail
  rcases hl : installTaskLoop { st with installDir := some (st.installDir.getD []) } tasks
    with ⟨r, st'⟩
  rw [hl] at h
  simp only at h
  subst h
  simp [hl]

/-- Concrete run for C1, matching the spec's end-to-end scenario: the
first of two tasks succeeds and extracts a file, the second fails
checksum verification; the run returns the checksum error and the install
directory is gone. -/
theorem install_all_or_nothing_witness :
    firstFailure [⟨"a.tar.xz", .taskOk ["fileA"]⟩, ⟨"b.tar.xz", .checksumFail⟩] =
        some .checksum
      ∧ (install_cuda_version_run ⟨none, []⟩
           [⟨"a.tar.xz", .taskOk ["fileA"]⟩, ⟨"b.tar.xz", .checksumFail⟩]).1 = some .checksum
      ∧ (install_cuda_version_run ⟨none, []⟩
           [⟨"a.tar.xz", .taskOk ["fileA"]⟩, ⟨"b.tar.xz", .checksumFail⟩]).2.installDir = none := by
  have h := install_all_or_nothing ⟨none, []⟩
    [⟨"a.tar.xz", .taskOk ["fileA"]⟩, ⟨"b.tar.xz", .checksumFail⟩] .checksum (by decide)
  exact ⟨by decide, h.1, h.2⟩

/-! ## C5: cache TTL strict boundary -/

/-- C5: a cached entry is served iff `now - cached_at < ttl`, with the
24-hour TTL for version lists and the 7-day TTL for metadata; an entry
aged exactly the TTL is expired (a miss), one aged one second less is
served. -/
theorem cache_ttl_strict_boundary
    (parse : String → Option CachedVersionList)
    (parseM : String → Option CachedMetadata)
    (product version content contentM : String)
    (cached : CachedVersionList) (cachedM : CachedMetadata)
    (now ttl : Nat)
    (hparse : parse content = some cached)
    (hparseM : parseM contentM = some cachedM) :
    (VERSION_LIST_TTL = 24 * 60 * 60 ∧ METADATA_TTL = 7 * 24 * 60 * 60)
      ∧ (is_cache_valid cached.cached_at ttl now = true ↔ now - cached.cached_at < ttl)
      ∧ load_cached_versions parse product false (some content) now =
          .ok (if now - cached.cached_at < VERSION_LIST_TTL then some cached.versions else none)
      ∧ load_cached_metadata parseM product version false (some contentM) now =
          .ok (if now - cachedM.cached_at < METADATA_TTL then some cachedM.metadata else none)
      ∧ (ttl ≤ now → is_cache_valid (now - ttl) ttl now = false)
      ∧ (ttl ≤ now → 1 ≤ ttl → is_cache_valid (now - ttl + 1) ttl now = true) := by
  refine ⟨⟨rfl, rfl⟩, ?_, ?_, ?_, ?_, ?_⟩
  · simp [is_cache_valid]
  · by_cases hc : now - cached.cached_at < VERSION_LIST_TTL <;>
      simp [load_cached_versions, hparse, is_cache_valid, hc]
  · by_cases hc : now - cachedM.cached_at < METADATA_TTL <;>
      simp [load_cached_metadata, hparseM, is_cache_valid, hc]
  · intro h; simp [is_cache_valid]; omega
  · intro h h1; simp [is_cache_valid]; omega

/-- Concrete boundary instance for C5: with a 100-second TTL, an entry
exactly 100 seconds old misses while a 99-second-old entry is served, and
a fresh version-list entry is returned by the loader. -/
theorem cache_ttl_strict_boundary_witness :
    (fun _ => some (⟨["12.0.0"], 900⟩ : CachedVersionList)) "f" = some ⟨["12.0.0"], 900⟩
      ∧ is_cache_valid (1000 - 100) 100 1000 = false
      ∧ is_cache_valid (1000 - 100 + 1) 100 1000 = true
      ∧ load_cached_versions (fun _ => some ⟨["12.0.0"], 900⟩) "cuda" false (some "f") 1000 =
          .ok (some ["12.0.0"]) := by
  have h := cache_ttl_strict_boundary
    (fun _ => some (⟨["12.0.0"], 900⟩ : CachedVersionList))
    (fun _ => some (⟨⟨[]⟩, 900⟩ : CachedMetadata))
    "cuda" "12.4.1" "f" "g" ⟨["12.0.0"], 900⟩ ⟨⟨[]⟩, 900⟩ 1000 100 rfl rfl
  exact ⟨rfl, h.2.2.2.2.1 (by decide), h.2.2.2.2.2 (by decide) (by decide),
    h.2.2.1.trans (by decide)⟩

/-! ## C8: corrupt cache is a hard error -/

/-- C8: with `force_refresh` false and an existing cache file whose
contents fail to parse, both cache loaders return an error to the caller
rather than a cache miss. -/
theorem corrupt_cache_hard_error
    (parse : String → Option CachedVersionList)
    (parseM : String → Option CachedMetadata)
    (product version content contentM : String) (now : Nat)
    (hbad : parse content = none) (hbadM : parseM contentM = none) :
    load_cached_versions parse product false (some content) now =
        .error (s!"Failed to parse cached {product} versions")
      ∧ load_cached_metadata parseM product version false (some contentM) now =
        .error (s!"Failed to parse cached {product} {version} metadata") := by
  constructor
  · simp [load_cached_versions, hbad]
  · simp [load_cached_metadata, hbadM]

/-- Concrete corrupt-cache run for C8: a parser that rejects everything
makes both loaders error out. -/
theorem corrupt_cache_hard_error_witness :
    ((fun _ => none) : String → Option CachedVersionList) "junk" = none
      ∧ load_cached_versions (fun _ => none) "cuda" false (some "junk") 100 =
          .error "Failed to parse cached cuda versions"
      ∧ load_cached_metadata (fun _ => none) "cudnn" "9.1.0" false (some "junk") 100 =
          .error "Failed to parse cached cudnn 9.1.0 metadata" := by
  have h := corrupt_cache_hard_error (fun _ => none) (fun _ => none)
    "cuda" "9.1.0" "junk" "junk" 100 rfl rfl
  refine ⟨rfl, h.1.trans (by decide), ?_⟩
  have h2 := corrupt_cache_hard_error (fun _ => none) (fun _ => none)
    "cudnn" "9.1.0" "junk" "junk" 100 rfl rfl
  exact h2.2.trans (by decide)

/-! ## C6: staged-archive cleanup -/

/-- Counterexample to C6: on the extraction-failure exit path the `?` on
`extract_tarball` (src/fetch/installer.rs line 130) propagates before the
cleanup line 134 runs, so `process_download_task` returns with the staged
archive still present. -/
theorem staged_cleanup_counterexample :
    process_download_task { installDir := some [], staged := [] }
        { archiveName := "cudnn.tar.xz", outcome := .extractFail } =
      (some .extract, { installDir := some [], staged := ["cudnn.tar.xz"] }) := by
  decide

/-- C6 as amended: whenever `process_download_task` returns from the
success path or the checksum-failure path, the staged archive file no
longer exists (deletion failure itself is ignored); on the
extraction-failure path the staged archive is left in place. -/
theorem staged_cleanup_amended (st : FsState) (t : TaskRun) :
    (t.outcome = .checksumFail →
        t.archiveName ∉ (process_download_task st t).2.staged)
      ∧ (∀ files, t.outcome = .taskOk files →
          t.archiveName ∉ (process_download_task st t).2.staged)
      ∧ (t.outcome = .extractFail →
          t.archiveName ∈ (process_download_task st t).2.staged) := by
  refine ⟨?_, ?_, ?_⟩
  · intro h
    simp [process_download_task, h, removeStaged, List.mem_filter]
  · intro files h
    simp [process_download_task, h, removeStaged, List.mem_filter]
  · intro h
    simp only [process_download_task, h, stageFile]
    by_cases hc : t.archiveName ∈ st.staged <;> simp [hc]

/-- Concrete runs for the amended C6: the checksum-failure and success
paths leave no staged archive, the extraction-failure path leaves one. -/
theorem staged_cleanup_amended_witness :
    (({ archiveName := "a.tar.xz", outcome := .checksumFail } : TaskRun).outcome =
        .checksumFail
      ∧ "a.tar.xz" ∉ (process_download_task ⟨some [], []⟩
          { archiveName := "a.tar.xz", outcome := .checksumFail }).2.staged)
      ∧ "b.tar.xz" ∈ (process_download_task ⟨some [], []⟩
          { archiveName := "b.tar.xz", outcome := .extractFail }).2.staged := by
  refine ⟨⟨rfl, ?_⟩, ?_⟩
  · exact (staged_cleanup_amended ⟨some [], []⟩
      { archiveName := "a.tar.xz", outcome := .checksumFail }).1 rfl
  · exact (staged_cleanup_amended ⟨some [], []⟩
      { archiveName := "b.tar.xz", outcome := .extractFail }).2.2 rfl

/-! ## C7: task sort policy -/

/-- C7, against the code as written: collection does not fail on the
unparseable size (it becomes `none`), but the comparator at
src/fetch/tasks.rs lines 79-84 returns `Less` when `a.size` is `None` and
`b.size` is `Some`, so the unknown-size task sorts before every
known-size task — the opposite of the claimed (and comment-documented)
order. -/
theorem task_sort_places_unknown_first :
    (collect_cuda_download_tasks c7_metadata "12.4.1" "linux-x86_64").map
        (fun ts => ts.map (fun t => (t.package_name, t.size))) =
      some [("b", none), ("a", some 10)] := by
  decide

/-! ## C9: version parsing -/

/-- C9: for every string with exactly three dot-separated components each
parsing as a `u32`, `CudaVersion::new` succeeds with `major()` the first
component's value, `minor()` the second and `patch()` the third; for every
string with a different number of components, or with a component that is
not a valid non-negative integer, construction fails. -/
theorem cuda_version_parse_spec :
    (∀ s c1 c2 c3 k1 k2 k3,
        rustSplitDot s = [c1, c2, c3] →
        rustParseU32 c1 = some k1 → rustParseU32 c2 = some k2 →
        rustParseU32 c3 = some k3 →
        cudaVersionParse s = .ok (k1, k2, k3))
      ∧ (∀ s, (rustSplitDot s).length ≠ 3 → (cudaVersionParse s).isOk = false)
      ∧ (∀ s c, c ∈ rustSplitDot s → rustParseU32 c = none →
          (cudaVersionParse s).isOk = false) := by
  refine ⟨?_, ?_, ?_⟩
  · intro s c1 c2 c3 k1 k2 k3 hs h1 h2 h3
    simp [cudaVersionParse, Except.isOk, Except.toBool, hs, h1, h2, h3]
  · intro s hlen
    rw [ne_eq] at hlen
    rcases hs : rustSplitDot s with _ | ⟨a, _ | ⟨b, _ | ⟨c, rest⟩⟩⟩
    · simp [cudaVersionParse, Except.isOk, Except.toBool, hs]
    · rcases ha : rustParseU32 a with _ | ka <;> simp [cudaVersionParse, Except.isOk, Except.toBool, hs, ha]
    · rcases ha : rustParseU32 a with _ | ka <;> rcases hb : rustParseU32 b with _ | kb <;>
        simp [cudaVersionParse, Except.isOk, Except.toBool, hs, ha, hb]
    · have hrest : rest ≠ [] := by
        intro hr
        rw [hs, hr] at hlen
        simp at hlen
      rcases ha : rustParseU32 a with _ | ka <;> rcases hb : rustParseU32 b with _ | kb <;>
        rcases hc : rustParseU32 c with _ | kc <;>
        simp [cudaVersionParse, Except.isOk, Except.toBool, hs, ha, hb, hc, hrest]
  · intro s c hmem hcnone
    rcases hs : rustSplitDot s with _ | ⟨a, _ | ⟨b, _ | ⟨d, rest⟩⟩⟩ <;> rw [hs] at hmem
    · simp at hmem
    · simp only [List.mem_singleton] at hmem
      subst hmem
      simp [cudaVersionParse, Except.isOk, Except.toBool, hs, hcnone]
    · simp only [List.mem_cons, List.not_mem_nil, or_false] at hmem
      rcases hmem with hmem | hmem
      · subst hmem
        simp [cudaVersionParse, Except.isOk, Except.toBool, hs, hcnone]
      · subst hmem
        rcases ha : rustParseU32 a with _ | ka <;> simp [cudaVersionParse, Except.isOk, Except.toBool, hs, ha, hcnone]
    · simp only [List.mem_cons] at hmem
      rcases hmem with hmem | hmem | hmem | hmem
      · subst hmem
        simp [cudaVersionParse, Except.isOk, Except.toBool, hs, hcnone]
      · subst hmem
        rcases ha : rustParseU32 a with _ | ka <;> simp [cudaVersionParse, Except.isOk, Except.toBool, hs, ha, hcnone]
      · subst hmem
        rcases ha : rustParseU32 a with _ | ka <;> rcases hb : rustParseU32 b with _ | kb <;>
          simp [cudaVersionParse, Except.isOk, Except.toBool, hs, ha, hb, hcnone]
      · have hrest : rest ≠ [] := List.ne_nil_of_mem hmem
        rcases ha : rustParseU32 a with _ | ka <;> rcases hb : rustParseU32 b with _ | kb <;>
          rcases hd : rustParseU32 d with _ | kd <;>
          simp [cudaVersionParse, Except.isOk, Except.toBool, hs, ha, hb, hd, hrest]

/-- Concrete instances for C9: `"12.4.1"` parses to components
`(12, 4, 1)`, `"12.4"` (two components) fails, and `"12.x.1"`
(non-numeric component) fails. -/
theorem cuda_version_parse_spec_witness :
    rustSplitDot "12.4.1" = ["12", "4", "1"]
      ∧ cudaVersionParse "12.4.1" = .ok (12, 4, 1)
      ∧ (rustSplitDot "12.4").length ≠ 3
      ∧ (cudaVersionParse "12.4").isOk = false
      ∧ "x" ∈ rustSplitDot "12.x.1"
      ∧ rustParseU32 "x" = none
      ∧ (cudaVersionParse "12.x.1").isOk = false := by
  refine ⟨by decide, ?_, by decide, ?_, by decide, by decide, ?_⟩
  · exact cuda_version_parse_spec.1 "12.4.1" "12" "4" "1" 12 4 1 (by decide) (by decide)
      (by decide) (by decide)
  · exact cuda_version_parse_spec.2.1 "12.4" (by decide)
  · exact cuda_version_parse_spec.2.2 "12.x.1" "x" (by decide) (by decide)

/-! ## C3 helper lemmas -/

/-- ASCII lowercasing never changes whether a character is whitespace. -/
theorem rustIsWhitespace_rustCharToLower (c : Char) :
    rustIsWhitespace (rustCharToLower c) = rustIsWhitespace c := by
  unfold rustCharToLower
  by_cases h : (65 ≤ c.toNat && c.toNat ≤ 90) = true
  · have h1 : 65 ≤ c.toNat := by
      have := h
      simp [Bool.and_eq_true, decide_eq_true_eq] at this
      exact this.1
    have h2 : c.toNat ≤ 90 := by
      have := h
      simp [Bool.and_eq_true, decide_eq_true_eq] at this
      exact this.2
    have hv : (c.toNat + 32).isValidChar := Or.inl (by omega)
    have htn : (Char.ofNat (c.toNat + 32)).toNat = c.toNat + 32 := by
      simp only [Char.ofNat, hv, dif_pos]
      simp only [Char.ofNatAux, Char.toNat, UInt32.ofNat', UInt32.toNat]
      simp
    rw [if_pos h]
    simp only [rustIsWhitespace, htn]
    simp only [List.mem_cons, List.not_mem_nil, or_false]
    have : ¬ (c.toNat + 32 = 9 ∨ c.toNat + 32 = 10 ∨ c.toNat + 32 = 11 ∨ c.toNat + 32 = 12 ∨
        c.toNat + 32 = 13 ∨ c.toNat + 32 = 32 ∨ c.toNat + 32 = 133 ∨ c.toNat + 32 = 160 ∨
        c.toNat + 32 = 5760 ∨ c.toNat + 32 = 8192 ∨ c.toNat + 32 = 8193 ∨ c.toNat + 32 = 8194 ∨
        c.toNat + 32 = 8195 ∨ c.toNat + 32 = 8196 ∨ c.toNat + 32 = 8197 ∨ c.toNat + 32 = 8198 ∨
        c.toNat + 32 = 8199 ∨ c.toNat + 32 = 8200 ∨ c.toNat + 32 = 8201 ∨ c.toNat + 32 = 8202 ∨
        c.toNat + 32 = 8232 ∨ c.toNat + 32 = 8233 ∨ c.toNat + 32 = 8239 ∨ c.toNat + 32 = 8287 ∨
        c.toNat + 32 = 12288) := by omega
    have hcn : ¬ (c.toNat = 9 ∨ c.toNat = 10 ∨ c.toNat = 11 ∨ c.toNat = 12 ∨
        c.toNat = 13 ∨ c.toNat = 32 ∨ c.toNat = 133 ∨ c.toNat = 160 ∨
        c.toNat = 5760 ∨ c.toNat = 8192 ∨ c.toNat = 8193 ∨ c.toNat = 8194 ∨
        c.toNat = 8195 ∨ c.toNat = 8196 ∨ c.toNat = 8197 ∨ c.toNat = 8198 ∨
        c.toNat = 8199 ∨ c.toNat = 8200 ∨ c.toNat = 8201 ∨ c.toNat = 8202 ∨
        c.toNat = 8232 ∨ c.toNat = 8233 ∨ c.toNat = 8239 ∨ c.toNat = 8287 ∨
        c.toNat = 12288) := by omega
    rw [decide_eq_false this, decide_eq_false hcn]
  · rw [if_neg h]

/-- Characters with the same lowercasing are whitespace together. -/
theorem rustIsWhitespace_eq_of_lower_eq {c c' : Char}
    (h : rustCharToLower c' = rustCharToLower c) :
    rustIsWhitespace c' = rustIsWhitespace c := by
  rw [← rustIsWhitespace_rustCharToLower c', h, rustIsWhitespace_rustCharToLower]

/-- Dropping a predicate-satisfying prefix skips a fully-satisfying block. -/
theorem dropWhile_append_all {p : Char → Bool} (pre x : List Char)
    (h : ∀ c ∈ pre, p c = true) :
    (pre ++ x).dropWhile p = x.dropWhile p := by
  induction pre with
  | nil => simp
  | cons a t ih =>
    have ha : p a = true := h a (List.mem_cons_self a t)
    simp only [List.cons_append, List.dropWhile_cons, ha, if_true]
    exact ih (fun c hc => h c (List.mem_cons_of_mem a hc))

/-- A nonempty `dropWhile` residue is unaffected by a right extension. -/
theorem dropWhile_append_of_ne_nil {p : Char → Bool} (x y : List Char)
    (h : x.dropWhile p ≠ []) :
    (x ++ y).dropWhile p = x.dropWhile p ++ y := by
  induction x with
  | nil => simp [List.dropWhile] at h
  | cons a t ih =>
    by_cases hp : p a = true
    · simp only [List.dropWhile_cons, hp, if_true] at h ⊢
      simp only [List.cons_append, List.dropWhile_cons, hp, if_true]
      exact ih h
    · simp only [Bool.not_eq_true] at hp
      simp [List.dropWhile_cons, hp]

/-- Trimming ignores an all-whitespace block on either side. -/
theorem trimChars_append (pre x post : List Char)
    (hpre : ∀ c ∈ pre, rustIsWhitespace c = true)
    (hpost : ∀ c ∈ post, rustIsWhitespace c = true) :
    trimChars (pre ++ x ++ post) = trimChars x := by
  unfold trimChars
  rw [List.append_assoc, dropWhile_append_all pre (x ++ post) hpre]
  by_cases hx : x.dropWhile rustIsWhitespace = []
  · have hxall : ∀ c ∈ x, rustIsWhitespace c = true := by
      intro c hc
      exact List.dropWhile_eq_nil_iff.mp hx c hc
    rw [dropWhile_append_all x post hxall, hx]
    have hpostnil : post.dropWhile rustIsWhitespace = [] :=
      List.dropWhile_eq_nil_iff.mpr hpost
    rw [hpostnil]
  · rw [dropWhile_append_of_ne_nil x post hx, List.reverse_append]
    rw [dropWhile_append_all post.reverse (x.dropWhile rustIsWhitespace).reverse
      (fun c hc => hpost c (List.mem_reverse.mp hc))]

/-- Lowercased images of `dropWhile` agree when the lowercased lists do. -/
theorem map_lower_dropWhile (l' l : List Char)
    (h : l'.map rustCharToLower = l.map rustCharToLower) :
    (l'.dropWhile rustIsWhitespace).map rustCharToLower =
      (l.dropWhile rustIsWhitespace).map rustCharToLower := by
  induction l' generalizing l with
  | nil =>
    cases l with
    | nil => rfl
    | cons a t => simp at h
  | cons a' t' ih =>
    cases l with
    | nil => simp at h
    | cons a t =>
      simp only [List.map_cons, List.cons.injEq] at h
      have hws : rustIsWhitespace a' = rustIsWhitespace a :=
        rustIsWhitespace_eq_of_lower_eq h.1
      by_cases hw : rustIsWhitespace a = true
      · simp only [List.dropWhile_cons, hw, hws, if_true]
        exact ih t h.2
      · simp only [Bool.not_eq_true] at hw
        simp only [List.dropWhile_cons, hw, hws]
        simp [h.1, h.2]

/-- Lowercased images of `trimChars` agree when the lowercased lists do. -/
theorem map_lower_trimChars (l' l : List Char)
    (h : l'.map rustCharToLower = l.map rustCharToLower) :
    (trimChars l').map rustCharToLower = (trimChars l).map rustCharToLower := by
  unfold trimChars
  have h1 := map_lower_dropWhile l' l h
  have h2 : (l'.dropWhile rustIsWhitespace).reverse.map rustCharToLower =
      (l.dropWhile rustIsWhitespace).reverse.map rustCharToLower := by
    rw [List.map_reverse, List.map_reverse, h1]
  have h3 := map_lower_dropWhile _ _ h2
  rw [List.map_reverse, List.map_reverse, h3]

/-! ## C3: checksum verification -/

/-- C3: `verify_checksum` succeeds iff the lowercase hex SHA-256 digest of
the file's bytes equals the expected string after trimming surrounding
whitespace and lowercasing; acceptance is invariant under surrounding
whitespace and under case changes of the expected digest; a differing
digest yields a checksum-mismatch error. -/
theorem verify_checksum_spec :
    (∀ f e, verify_checksum f e = .ok () ↔
        bytesToHex (sha256 f) = rustToLowercase (rustTrim e))
      ∧ (∀ f e, bytesToHex (sha256 f) ≠ rustToLowercase (rustTrim e) →
          ∃ msg, verify_checksum f e = .error msg)
      ∧ (∀ f e pre post,
          (∀ c ∈ pre.toList, rustIsWhitespace c = true) →
          (∀ c ∈ post.toList, rustIsWhitespace c = true) →
          verify_checksum f (pre ++ e ++ post) = verify_checksum f e)
      ∧ (∀ f e e', e'.toList.map rustCharToLower = e.toList.map rustCharToLower →
          verify_checksum f e' = verify_checksum f e) := by
  refine ⟨?_, ?_, ?_, ?_⟩
  · intro f e
    by_cases h : bytesToHex (sha256 f) = rustToLowercase (rustTrim e) <;>
      simp [verify_checksum, h]
  · intro f e h
    exact ⟨s!"Checksum mismatch: expected {rustToLowercase (rustTrim e)}, got {bytesToHex (sha256 f)}",
      by simp [verify_checksum, h]⟩
  · intro f e pre post hpre hpost
    have htoList : (pre ++ e ++ post).toList = pre.toList ++ e.toList ++ post.toList := by
      simp [String.toList, String.data_append]
    have htrim : rustTrim (pre ++ e ++ post) = rustTrim e := by
      unfold rustTrim
      rw [htoList]
      exact congrArg List.asString (trimChars_append pre.toList e.toList post.toList hpre hpost)
    simp only [verify_checksum, htrim]
  · intro f e e' hcase
    have hnorm : rustToLowercase (rustTrim e') = rustToLowercase (rustTrim e) := by
      unfold rustToLowercase rustTrim
      exact congrArg List.asString (map_lower_trimChars e'.toList e.toList hcase)
    simp only [verify_checksum, hnorm]

/-- Concrete instances for C3: the empty file against its digest written
with surrounding whitespace, in upper case, and in canonical lower case,
plus a mismatching file. -/
theorem verify_checksum_spec_witness :
    verify_checksum []
        ("  " ++ "E3B0C44298FC1C149AFBF4C8996FB92427AE41E4649B934CA495991B7852B855" ++ " ") =
      verify_checksum [] "E3B0C44298FC1C149AFBF4C8996FB92427AE41E4649B934CA495991B7852B855"
    ∧ verify_checksum [] "E3B0C44298FC1C149AFBF4C8996FB92427AE41E4649B934CA495991B7852B855" =
        verify_checksum [] "e3b0c44298fc1c149afbf4c8996fb92427ae41e4649b934ca495991b7852b855"
    ∧ verify_checksum [] "e3b0c44298fc1c149afbf4c8996fb92427ae41e4649b934ca495991b7852b855" =
        .ok ()
    ∧ (∃ msg, verify_checksum [0]
        "e3b0c44298fc1c149afbf4c8996fb92427ae41e4649b934ca495991b7852b855" =
        .error msg) := by
  refine ⟨?_, ?_, ?_, ?_⟩
  · exact verify_checksum_spec.2.2.1 []
      "E3B0C44298FC1C149AFBF4C8996FB92427AE41E4649B934CA495991B7852B855" "  " " "
      (by decide) (by decide)
  · exact verify_checksum_spec.2.2.2 []
      "e3b0c44298fc1c149afbf4c8996fb92427ae41e4649b934ca495991b7852b855"
      "E3B0C44298FC1C149AFBF4C8996FB92427AE41E4649B934CA495991B7852B855"
      (by decide)
  · exact (verify_checksum_spec.1 []
      "e3b0c44298fc1c149afbf4c8996fb92427ae41e4649b934ca495991b7852b855").mpr (by decide)
  · exact verify_checksum_spec.2.1 [0]
      "e3b0c44298fc1c149afbf4c8996fb92427ae41e4649b934ca495991b7852b855" (by decide)

/-! ## C4 helper definitions and lemmas -/

/-- When the version has a major component, no package panics the loop. -/
theorem fetchTaskOfPackage_not_panicked (v pl nm : String) (pi : PackageInfo)
    (maj : String) (hmaj : cuda_major_version v = some maj) :
    fetchTaskOfPackage v pl nm pi ≠ .panicked := by
  unfold fetchTaskOfPackage
  by_cases hrel : rustStartsWith nm "release_" = true
  · simp [hrel]
  · simp only [Bool.not_eq_true] at hrel
    simp only [hrel, Bool.false_eq_true, if_false]
    rcases hplat : pi.get_platform pl with _ | pinfo
    · simp
    · rcases pinfo with info | variants
      · simp
      · simp only [hmaj]
        rcases hv : variantsGet variants ("cuda" ++ maj) with _ | info <;> simp

/-- A produced task carries its package's name. -/
theorem fetchTaskOfPackage_name (v pl nm : String) (pi : PackageInfo) (t : DownloadTask)
    (h : fetchTaskOfPackage v pl nm pi = .task t) : t.package_name = nm := by
  unfold fetchTaskOfPackage at h
  by_cases hrel : rustStartsWith nm "release_" = true
  · simp [hrel] at h
  · simp only [Bool.not_eq_true] at hrel
    simp only [hrel, Bool.false_eq_true, if_false] at h
    rcases hplat : pi.get_platform pl with _ | pinfo <;> rw [hplat] at h
    · cases h
    · rcases pinfo with info | variants
      · simp only at h
        cases h
        rfl
      · simp only at h
        rcases hm : cuda_major_version v with _ | maj <;> rw [hm] at h
        · cases h
        · dsimp only at h
          rcases hv : variantsGet variants ("cuda" ++ maj) with _ | info <;> rw [hv] at h
          · cases h
          · cases h
            rfl

/-- Produced-task existence agrees with the selection condition. -/
theorem fetchStep_isSome (v pl nm maj : String) (pi : PackageInfo)
    (hmaj : cuda_major_version v = some maj) :
    (fetchStep v pl (nm, pi)).isSome = fetchSelected maj pl nm pi := by
  unfold fetchStep fetchTaskOfPackage fetchSelected
  by_cases hrel : rustStartsWith nm "release_" = true
  · simp [hrel]
  · simp only [Bool.not_eq_true] at hrel
    simp only [hrel, Bool.false_eq_true, if_false, Bool.not_false, Bool.true_and]
    rcases hplat : pi.get_platform pl with _ | pinfo
    · simp
    · rcases pinfo with info | variants
      · simp
      · simp only [hmaj]
        rcases hv : variantsGet variants ("cuda" ++ maj) with _ | info <;> simp

/-- With a major available, the loop never fails and is the obvious
`filterMap`. -/
theorem fetchCollectLoop_eq (v pl maj : String) (hmaj : cuda_major_version v = some maj)
    (l : List (String × PackageInfo)) :
    fetchCollectLoop v pl l = some (l.filterMap (fetchStep v pl)) := by
  induction l with
  | nil => rfl
  | cons p rest ih =>
    have hnp := fetchTaskOfPackage_not_panicked v pl p.1 p.2 maj hmaj
    unfold fetchCollectLoop
    rcases hstep : fetchTaskOfPackage v pl p.1 p.2 with _ | _ | t
    · simp only [List.filterMap_cons]
      have : fetchStep v pl p = none := by unfold fetchStep; rw [hstep]
      rw [this, ih]
    · exact absurd hstep hnp
    · simp only [List.filterMap_cons]
      have : fetchStep v pl p = some t := by unfold fetchStep; rw [hstep]
      rw [this, ih]
      rfl

/-- Tasks of packages other than `nm` do not count towards `nm`. -/
theorem countP_filterMap_not_mem (v pl nm : String) (l : List (String × PackageInfo))
    (hnm : nm ∉ l.map Prod.fst) :
    (l.filterMap (fetchStep v pl)).countP (fun t => t.package_name == nm) = 0 := by
  induction l with
  | nil => rfl
  | cons p rest ih =>
    simp only [List.map_cons, List.mem_cons, not_or] at hnm
    rcases hstep : fetchStep v pl p with _ | t
    · simp only [List.filterMap_cons, hstep]
      exact ih hnm.2
    · have hname : t.package_name = p.1 := by
        unfold fetchStep at hstep
        rcases h2 : fetchTaskOfPackage v pl p.1 p.2 with _ | _ | u <;> rw [h2] at hstep
        · cases hstep
        · cases hstep
        · cases hstep
          exact fetchTaskOfPackage_name v pl p.1 p.2 _ h2
      simp only [List.filterMap_cons, hstep, List.countP_cons]
      have hne : (t.package_name == nm) = false := by
        rw [hname]
        simp
        intro hc
        exact hnm.1 hc.symm
      rw [hne]
      simp [ih hnm.2]

/-- A task produced by `fetchStep` carries its package's name. -/
theorem fetchStep_name (v pl : String) (p : String × PackageInfo) (t : DownloadTask)
    (h : fetchStep v pl p = some t) : t.package_name = p.1 := by
  unfold fetchStep at h
  rcases h2 : fetchTaskOfPackage v pl p.1 p.2 with _ | _ | u <;> rw [h2] at h
  · cases h
  · cases h
  · cases h
    exact fetchTaskOfPackage_name v pl p.1 p.2 _ h2

/-- Each package contributes exactly one task when selected and none
otherwise. -/
theorem countP_filterMap_mem (v pl nm maj : String) (pi : PackageInfo)
    (l : List (String × PackageInfo))
    (hmaj : cuda_major_version v = some maj)
    (hmem : (nm, pi) ∈ l)
    (hkeys : (l.map Prod.fst).Nodup) :
    (l.filterMap (fetchStep v pl)).countP (fun t => t.package_name == nm) =
      if fetchSelected maj pl nm pi then 1 else 0 := by
  induction l with
  | nil => cases hmem
  | cons p rest ih =>
    simp only [List.map_cons, List.nodup_cons] at hkeys
    rcases List.mem_cons.mp hmem with heq | hmem2
    · cases heq.symm
      have hrest0 := countP_filterMap_not_mem v pl nm rest (by simpa using hkeys.1)
      rcases hstep : fetchStep v pl (nm, pi) with _ | t
      · have hsel : fetchSelected maj pl nm pi = false := by
          have hiff := fetchStep_isSome v pl nm maj pi hmaj
          rw [hstep] at hiff
          simpa using hiff.symm
        simp [List.filterMap_cons, hstep, hrest0, hsel]
      · have hsel : fetchSelected maj pl nm pi = true := by
          have hiff := fetchStep_isSome v pl nm maj pi hmaj
          rw [hstep] at hiff
          simpa using hiff.symm
        have hname : t.package_name = nm := fetchStep_name v pl (nm, pi) t hstep
        simp [List.filterMap_cons, hstep, List.countP_cons, hrest0, hsel, hname]
    · have hnmrest : nm ∈ rest.map Prod.fst := by
        exact List.mem_map.mpr ⟨(nm, pi), hmem2, rfl⟩
      have hpne : p.1 ≠ nm := by
        intro hc
        rw [hc] at hkeys
        exact hkeys.1 hnmrest
      rcases hstep : fetchStep v pl p with _ | t
      · simp only [List.filterMap_cons, hstep]
        exact ih hmem2 hkeys.2
      · have hname : t.package_name = p.1 := fetchStep_name v pl p t hstep
        have hne : (t.package_name == nm) = false := by
          rw [hname]
          simpa using hpne
        simp only [List.filterMap_cons, hstep, List.countP_cons, hne, if_false]
        simpa using ih hmem2 hkeys.2

/-! ## C4: task-collection selection -/

/-- C4: collection yields exactly one task per package that is not
release-prefixed, has an entry for the requested platform, and whose
entry is `Simple` or a `Variants` map containing the `"cuda" + major`
key; every other package is skipped without error.  On the spec's
example, major 12 selects both packages with `b` drawn from `d2`, and
major 13 selects only `a`. -/
theorem collect_tasks_selection
    (metadata : CudaReleaseMetadata) (v platform maj : String)
    (hmaj : cuda_major_version v = some maj)
    (hkeys : (metadata.packages.map Prod.fst).Nodup) :
    (∃ tasks, collect_cuda_download_tasks metadata v platform = some tasks
        ∧ ∀ nm pi, (nm, pi) ∈ metadata.packages →
            tasks.countP (fun t => t.package_name == nm) =
              if fetchSelected maj platform nm pi then 1 else 0)
      ∧ (collect_cuda_download_tasks c4_metadata "12.0.0" "P").map
          (fun ts => ts.map (fun t => (t.package_name, t.relative_path))) =
          some [("a", "d1"), ("b", "d2")]
      ∧ (collect_cuda_download_tasks c4_metadata "13.0.0" "P").map
          (fun ts => ts.map (fun t => (t.package_name, t.relative_path))) =
          some [("a", "d1")] := by
  refine ⟨?_, by decide, by decide⟩
  refine ⟨(metadata.packages.filterMap (fetchStep v platform)).insertionSort
    (fun a b => taskLe a b = true), ?_, ?_⟩
  · unfold collect_cuda_download_tasks
    rw [fetchCollectLoop_eq v platform maj hmaj]
    rfl
  · intro nm pi hmem
    have hperm := List.perm_insertionSort (fun a b => taskLe a b = true)
      (metadata.packages.filterMap (fetchStep v platform))
    rw [hperm.countP_eq]
    exact countP_filterMap_mem v platform nm maj pi metadata.packages hmaj hmem hkeys

/-- Concrete instance for C4: on the spec's example with major 12, both
packages contribute exactly one task each. -/
theorem collect_tasks_selection_witness :
    cuda_major_version "12.0.0" = some "12"
      ∧ (c4_metadata.packages.map Prod.fst).Nodup
      ∧ (∃ tasks, collect_cuda_download_tasks c4_metadata "12.0.0" "P" = some tasks
          ∧ tasks.countP (fun t => t.package_name == "b") = 1) := by
  have h := (collect_tasks_selection c4_metadata "12.0.0" "P" "12" (by decide) (by decide)).1
  obtain ⟨tasks, h1, h2⟩ := h
  refine ⟨by decide, by decide, tasks, h1, ?_⟩
  have hb := h2 "b" (c4_metadata.packages.get ⟨1, by decide⟩).2 (by decide)
  rw [hb]
  decide

/-! ## C2 helper definitions and lemmas -/

/-- The compatible-set component of the search fold is a filter. -/
theorem fetch_compat_fst (v : String)
    (fetchMeta : String → Option CudaReleaseMetadata) :
    ∀ (available : List String) (acc : List String × List String),
      (available.foldl
        (fun acc ver =>
          let fetched := acc.2 ++ [ver]
          match fetchMeta ver with
          | none => (acc.1, fetched)
          | some md =>
            if cudnnSupportsMajor md (cudaMajorSplit v) then
              (acc.1 ++ [ver], fetched)
            else
              (acc.1, fetched))
        acc).1 = acc.1 ++ available.filter (compatCond v fetchMeta) := by
  intro available
  induction available with
  | nil => intro acc; simp
  | cons ver rest ih =>
    intro acc
    rw [List.foldl_cons, ih]
    rcases hm : fetchMeta ver with _ | md
    · simp [List.filter_cons, compatCond, hm]
    · dsimp only
      by_cases hc : cudnnSupportsMajor md (cudaMajorSplit v) = true
      · simp [List.filter_cons, compatCond, hm, hc]
      · simp only [Bool.not_eq_true] at hc
        simp [List.filter_cons, compatCond, hm, hc]

/-- The compatible versions of the search are the filtered available
list. -/
theorem fetch_compatible_cudnn_versions_fst (v : String)
    (available : List String) (fetchMeta : String → Option CudaReleaseMetadata) :
    (fetch_compatible_cudnn_versions v available fetchMeta).1 =
      available.filter (compatCond v fetchMeta) := by
  unfold fetch_compatible_cudnn_versions
  simpa using fetch_compat_fst v fetchMeta available ([], [])

/-- In a strictly ascending list, the last element bounds every member. -/
theorem pairwise_getLast_max :
    ∀ (l : List String), List.Pairwise (fun a b => rustStringLt a b = true) l →
      ∀ c, l.getLast? = some c → ∀ x ∈ l, rustStringLe x c = true := by
  intro l
  induction l with
  | nil => intro _ c h; cases h
  | cons a rest ih =>
    intro hp c hlast x hx
    cases rest with
    | nil =>
      simp only [List.getLast?_singleton, Option.some.injEq] at hlast
      subst hlast
      simp only [List.mem_singleton] at hx
      subst hx
      simp [rustStringLe]
    | cons b t =>
      rw [List.getLast?_cons_cons] at hlast
      rcases List.mem_cons.mp hx with hxa | hx2
      · subst hxa
        have hcmem : c ∈ b :: t := List.mem_of_mem_getLast? hlast
        have hlt : rustStringLt x c = true := (List.pairwise_cons.mp hp).1 c hcmem
        simp [rustStringLe, hlt]
      · exact ih hp.of_cons c hlast x hx2

/-! ## C2: companion-compatibility search -/

/-- Counterexample to C2 on the spec's own example: the search does
return the newest match `("9.1.0", "cuda12")`, but it enumerates the
available set in ascending order and fetches the metadata of every
candidate — the fetch trace contains the older versions `8.9.0` and
`9.0.0`, which the claim says are never fetched. -/
theorem companion_search_counterexample :
    find_compatible_cudnn "12.4.1" ["8.9.0", "9.0.0", "9.1.0"] c2_fetch =
        some ("9.1.0", "cuda12")
      ∧ (fetch_compatible_cudnn_versions "12.4.1" ["8.9.0", "9.0.0", "9.1.0"] c2_fetch).2 =
        ["8.9.0", "9.0.0", "9.1.0"] := by
  decide

/-- C2 as amended: `find_compatible_cudnn` fetches the metadata of every
available companion version in ascending set order (skipping candidates
whose fetch fails, never failing on them), and returns
`some (c, "cuda" + major)` where `c` is the greatest (newest) available
version whose primary package declares the major — `none` when no
candidate matches. -/
theorem find_compatible_cudnn_newest
    (v : String) (available : List String)
    (fetchMeta : String → Option CudaReleaseMetadata)
    (hsorted : List.Pairwise (fun a b => rustStringLt a b = true) available) :
    ((fetch_compatible_cudnn_versions v available fetchMeta).2 = available)
      ∧ (find_compatible_cudnn v available fetchMeta = none ↔
          ∀ x ∈ available, compatCond v fetchMeta x = false)
      ∧ (∀ c k, find_compatible_cudnn v available fetchMeta = some (c, k) →
          k = "cuda" ++ cudaMajorSplit v
            ∧ c ∈ available
            ∧ compatCond v fetchMeta c = true
            ∧ ∀ x ∈ available, compatCond v fetchMeta x = true →
                rustStringLe x c = true) := by
  refine ⟨?_, ?_, ?_⟩
  · unfold fetch_compatible_cudnn_versions
    suffices h : ∀ (l : List String) (acc : List String × List String),
        (l.foldl
          (fun acc ver =>
            let fetched := acc.2 ++ [ver]
            match fetchMeta ver with
            | none => (acc.1, fetched)
            | some md =>
              if cudnnSupportsMajor md (cudaMajorSplit v) then
                (acc.1 ++ [ver], fetched)
              else
                (acc.1, fetched))
          acc).2 = acc.2 ++ l by
      simpa using h available ([], [])
    intro l
    induction l with
    | nil => intro acc; simp
    | cons ver rest ih =>
      intro acc
      rw [List.foldl_cons]
      rcases hm : fetchMeta ver with _ | md
      · simp [ih, hm]
      · dsimp only
        by_cases hc : cudnnSupportsMajor md (cudaMajorSplit v) = true
        · simp [ih, hm, hc]
        · simp only [Bool.not_eq_true] at hc
          simp [ih, hm, hc]
  · unfold find_compatible_cudnn
    rw [fetch_compatible_cudnn_versions_fst]
    simp only [Option.map_eq_none', List.getLast?_eq_none_iff]
    rw [List.filter_eq_nil_iff]
    constructor
    · intro h x hx
      simpa using h x hx
    · intro h x hx
      simp [h x hx]
  · intro c k h
    unfold find_compatible_cudnn at h
    rw [fetch_compatible_cudnn_versions_fst] at h
    rcases hlast : (available.filter (compatCond v fetchMeta)).getLast? with _ | c0 <;>
      rw [hlast] at h
    · cases h
    · simp only [Option.map_some', Option.some.injEq, Prod.mk.injEq] at h
      obtain ⟨hc0, hk⟩ := h
      subst hc0
      have hcf : c0 ∈ available.filter (compatCond v fetchMeta) :=
        List.mem_of_mem_getLast? hlast
      refine ⟨hk.symm, List.mem_of_mem_filter hcf, List.of_mem_filter hcf, ?_⟩
      intro x hx hcond
      have hxf : x ∈ available.filter (compatCond v fetchMeta) :=
        List.mem_filter.mpr ⟨hx, hcond⟩
      exact pairwise_getLast_max _ (hsorted.filter _) c0 hlast x hxf

/-- Concrete instance for C2 as amended, on the spec's example: the
search returns `("9.1.0", "cuda12")`, `9.1.0` is a compatible member of
the available set, and the older compatible `9.0.0` is bounded by it. -/
theorem find_compatible_cudnn_newest_witness :
    List.Pairwise (fun a b => rustStringLt a b = true) ["8.9.0", "9.0.0", "9.1.0"]
      ∧ find_compatible_cudnn "12.4.1" ["8.9.0", "9.0.0", "9.1.0"] c2_fetch =
          some ("9.1.0", "cuda12")
      ∧ "9.1.0" ∈ ["8.9.0", "9.0.0", "9.1.0"]
      ∧ compatCond "12.4.1" c2_fetch "9.1.0" = true
      ∧ rustStringLe "9.0.0" "9.1.0" = true := by
  have h := (find_compatible_cudnn_newest "12.4.1" ["8.9.0", "9.0.0", "9.1.0"] c2_fetch
    (by decide)).2.2 "9.1.0" "cuda12" (by decide)
  exact ⟨by decide, by decide, h.2.1, h.2.2.1, h.2.2.2 "9.0.0" (by decide) (by decide)⟩

/-! ## C10 helper definitions and lemmas -/

/-- When the current collector's major extraction succeeds, the
historical one computes the same string. -/
theorem installCudaMajor_eq (v maj : String)
    (hmaj : cuda_major_version v = some maj) : installCudaMajor v = maj := by
  unfold cuda_major_version at hmaj
  unfold installCudaMajor
  rcases h : rustSplitDot v with _ | ⟨c, rest⟩ <;> rw [h] at hmaj
  · cases hmaj
  · dsimp only at hmaj ⊢
    by_cases hc : c.isEmpty = true <;> simp [hc] at hmaj
    exact hmaj

/-- Pointwise agreement of the two per-package projections. -/
theorem step_agree (v maj : String) (hmaj : cuda_major_version v = some maj)
    (p : String × PackageInfo) :
    (fetchStep v "linux-x86_64" p).map toInstallTask = installTaskStep v p := by
  unfold fetchStep fetchTaskOfPackage installTaskStep
  simp only [TARGET_PLATFORM]
  by_cases hrel : rustStartsWith p.1 "release_" = true
  · simp [hrel]
  · simp only [Bool.not_eq_true] at hrel
    simp only [hrel, Bool.false_eq_true, if_false]
    rcases hplat : (p.2).get_platform "linux-x86_64" with _ | pinfo
    · simp
    · rcases pinfo with info | variants
      · simp [toInstallTask, parse_size]
      · simp only [hmaj]
        rw [installCudaMajor_eq v maj hmaj]
        rcases hv : variantsGet variants ("cuda" ++ maj) with _ | info <;>
          simp [hv, toInstallTask, parse_size]

/-! ## C10: historical/current collector agreement -/

/-- Counterexample to C10 as stated over every version string: on the
empty version string the current collector panics (the `expect` at
src/fetch/tasks.rs line 56, modelled as `none`) while the historical
collector, whose major falls back to the text before the first dot,
selects package `b` — the two do not select the same packages. -/
theorem collectors_agreement_counterexample :
    collect_cuda_download_tasks c10_metadata "" "linux-x86_64" = none
      ∧ (installCollectCudaDownloadTasks c10_metadata "").map (fun t => t.package_name) =
        ["b"] := by
  decide

/-- C10 as amended: for every metadata and every version string whose
first dot-separated component is nonempty, the two collectors select the
same packages with pairwise-identical `package_name`, `version`, `url`,
`sha256` and `relative_path`, differing only in task order and in
representing an unparseable size as `0` versus `None`. -/
theorem collectors_agree (metadata : CudaReleaseMetadata) (v maj : String)
    (hmaj : cuda_major_version v = some maj) :
    ∃ tasks, collect_cuda_download_tasks metadata v "linux-x86_64" = some tasks
      ∧ (tasks.map toInstallTask).Perm (installCollectCudaDownloadTasks metadata v) := by
  refine ⟨(metadata.packages.filterMap (fetchStep v "linux-x86_64")).insertionSort
    (fun a b => taskLe a b = true), ?_, ?_⟩
  · unfold collect_cuda_download_tasks
    rw [fetchCollectLoop_eq v "linux-x86_64" maj hmaj]
    rfl
  · have hU : (metadata.packages.filterMap (fetchStep v "linux-x86_64")).map toInstallTask =
        installCollectCudaDownloadTasks metadata v := by
      unfold installCollectCudaDownloadTasks
      rw [List.map_filterMap]
      congr 1
      funext p
      exact step_agree v maj hmaj p
    rw [← hU]
    exact (List.perm_insertionSort _ _).map toInstallTask

/-- Concrete instance of the amended C10 on `c10_sample` and version
`12.4.1`. -/
theorem collectors_agree_witness :
    cuda_major_version "12.4.1" = some "12"
      ∧ ∃ tasks, collect_cuda_download_tasks c10_sample "12.4.1" "linux-x86_64" = some tasks
          ∧ (tasks.map toInstallTask).Perm (installCollectCudaDownloadTasks c10_sample "12.4.1") :=
  ⟨by decide, collectors_agree c10_sample "12.4.1" "12" (by decide)⟩
